import Mathlib

/-!
Verification of the Field Detection & Matching Engine
(`src/field_matcher.py` and `src/screen_analyzer.py`).

Strings are modelled as `List Char`, Python ints as `ℤ`, Python floats
(confidences, areas, ratios) as `ℚ` with exact arithmetic.  External
collaborators (the OCR engine, the text-understanding service, the OpenCV
contour extraction) are passed in as explicit oracle arguments; everything
the repository's own code computes is embedded directly.
-/

namespace FormFiller

/-- The characters of a Lean string literal, used to write the Python
string constants of the source. -/
def str (s : String) : List Char := s.data

/-- Python `\w` character class (ASCII fragment): letters, digits, underscore. -/
def isWordChar (c : Char) : Bool := c.isAlphanum || c = '_'

/-- Python `\s` / `str.strip()` whitespace characters. -/
def isPySpace (c : Char) : Bool :=
  c = ' ' || c = '\t' || c = '\n' || c = '\r' || c = '\x0b' || c = '\x0c'

/-- Python `s.strip()` with no argument: drop whitespace from both ends. -/
def pyStripWS (s : List Char) : List Char :=
  ((s.dropWhile isPySpace).reverse.dropWhile isPySpace).reverse

/-- Membership in the character set of Python `strip(r'\b')`, i.e. the
two characters backslash and `b`. -/
def isBSorB (c : Char) : Bool := c = '\\' || c = 'b'

/-- Python `pattern.strip(r'\b')`: drop characters in `{'\\', 'b'\x7d` from
both ends of the pattern string. -/
def pyStripBSb (s : List Char) : List Char :=
  ((s.dropWhile isBSorB).reverse.dropWhile isBSorB).reverse

/-- Python `s.replace(r'\s*', ' ')`: replace every occurrence of the three
characters `\s*` by a single space, scanning left to right. -/
def replWS : List Char → List Char
  | '\\' :: 's' :: '*' :: rest => ' ' :: replWS rest
  | c :: rest => c :: replWS rest
  | [] => []

/-- Python `s.lower()` (ASCII fragment). -/
def lowerCL (s : List Char) : List Char := s.map Char.toLower

/-- Python `a in b` on strings: `a` occurs contiguously inside `b`. -/
def containsSub (b a : List Char) : Bool := b.tails.any (fun t => a.isPrefixOf t)

/-- Python `s.split('|')`: split at every pipe, keeping empty parts. -/
def splitPipe (s : List Char) : List (List Char) :=
  match s with
  | [] => [[]]
  | c :: rest =>
    let ps := splitPipe rest
    if c = '|' then [] :: ps
    else match ps with
         | [] => [[c]]
         | p :: ps' => (c :: p) :: ps'

/-! ### A regex engine for the pattern fragment used by the source

The patterns of `field_patterns` use only: literal characters, the
word-boundary assertion `\b`, the repetition `\s*` (zero or more
whitespace characters), and the escaped parentheses `\(`, `\)`.  -/

/-- One item of a compiled pattern. -/
inductive RItem where
  | lit (c : Char)
  | wordB
  | starWS
  deriving DecidableEq

/-- Compile a raw pattern string (as written in the Python source) into
a list of items. -/
def compilePat : List Char → List RItem
  | '\\' :: 'b' :: rest => RItem.wordB :: compilePat rest
  | '\\' :: 's' :: '*' :: rest => RItem.starWS :: compilePat rest
  | '\\' :: '(' :: rest => RItem.lit '(' :: compilePat rest
  | '\\' :: ')' :: rest => RItem.lit ')' :: compilePat rest
  | c :: rest => RItem.lit c :: compilePat rest
  | [] => []

/-- `\b` holds between a previous character (`none` at string start) and
the next character (`none` at string end) iff exactly one side is a word
character. -/
def isBoundary (prev : Option Char) (next : Option Char) : Bool :=
  let p := match prev with | none => false | some c => isWordChar c
  let n := match next with | none => false | some c => isWordChar c
  p != n

/-- Backtracking for `\s*`: try the continuation `k` after consuming any
number of leading whitespace characters. -/
def matchStar (k : Option Char → List Char → Bool) : Option Char → List Char → Bool
  | prev, [] => k prev []
  | prev, x :: xs => k prev (x :: xs) || (isPySpace x && matchStar k (some x) xs)

/-- Match a compiled pattern against the string `s`, `prev` being the
character just before `s` in the full subject.  Succeeds as soon as the
whole pattern is consumed (the remainder of `s` is irrelevant, as in
`re.search`).  `\s*` is tried with every possible length via `matchStar`. -/
def matchItems : List RItem → Option Char → List Char → Bool
  | [], _, _ => true
  | RItem.wordB :: ps, prev, s => isBoundary prev s.head? && matchItems ps prev s
  | RItem.lit c :: ps, _, s =>
    match s with
    | [] => false
    | x :: xs => x = c && matchItems ps (some x) xs
  | RItem.starWS :: ps, prev, s => matchStar (matchItems ps) prev s

/-- Try to match starting at every position of `s`, tracking the
character before the current position. -/
def searchFrom (p : List RItem) : Option Char → List Char → Bool
  | prev, [] => matchItems p prev []
  | prev, x :: xs => matchItems p prev (x :: xs) || searchFrom p (some x) xs

/-- Python `re.search(pattern, s) is not None` for the pattern fragment. -/
def reSearch (pat : List Char) (s : List Char) : Bool :=
  searchFrom (compilePat pat) none s

/-! ### `FieldMatcher` (`src/field_matcher.py`) -/

/-- The dataclass `FieldMatch`. -/
structure FieldMatch where
  field_name : List Char
  data_key : List Char
  confidence : ℚ
  reasoning : List Char
  deriving DecidableEq

/-- `FieldMatcher.field_patterns`: the fixed table of data key →
regex-pattern alternatives, in the insertion order of the Python dict. -/
def field_patterns : List (List Char × List (List Char)) :=
  [ (str "first_name",
      [str "\\bfirst\\s*name\\b", str "\\bfname\\b", str "\\bgiven\\s*name\\b",
       str "\\bforename\\b", str "\\bname\\s*\\(first\\)", str "\\bfirst\\b"]),
    (str "last_name",
      [str "\\blast\\s*name\\b", str "\\blname\\b", str "\\bsurname\\b",
       str "\\bfamily\\s*name\\b", str "\\bname\\s*\\(last\\)", str "\\blast\\b"]),
    (str "full_name",
      [str "\\bfull\\s*name\\b", str "\\bname\\b", str "\\bcomplete\\s*name\\b",
       str "\\byour\\s*name\\b", str "\\bapplicant\\s*name\\b"]),
    (str "email",
      [str "\\bemail\\b", str "\\be-mail\\b", str "\\bemail\\s*address\\b",
       str "\\bcontact\\s*email\\b", str "\\bmail\\b"]),
    (str "phone",
      [str "\\bphone\\b", str "\\btelephone\\b", str "\\bmobile\\b", str "\\bcell\\b",
       str "\\bphone\\s*number\\b", str "\\bcontact\\s*number\\b", str "\\btel\\b"]),
    (str "address",
      [str "\\baddress\\b", str "\\bstreet\\b", str "\\bhome\\s*address\\b",
       str "\\bmailing\\s*address\\b", str "\\bresidential\\s*address\\b"]),
    (str "city",
      [str "\\bcity\\b", str "\\btown\\b", str "\\blocality\\b"]),
    (str "state",
      [str "\\bstate\\b", str "\\bprovince\\b", str "\\bregion\\b"]),
    (str "zip",
      [str "\\bzip\\b", str "\\bpostal\\s*code\\b", str "\\bpostcode\\b",
       str "\\bzip\\s*code\\b"]),
    (str "country",
      [str "\\bcountry\\b", str "\\bnation\\b", str "\\bnationality\\b"]),
    (str "university",
      [str "\\buniversity\\b", str "\\bcollege\\b", str "\\bschool\\b",
       str "\\binstitution\\b", str "\\beducation\\b", str "\\balma\\s*mater\\b"]),
    (str "degree",
      [str "\\bdegree\\b", str "\\bqualification\\b", str "\\beducation\\s*level\\b",
       str "\\bmajor\\b", str "\\bfield\\s*of\\s*study\\b"]),
    (str "graduation_year",
      [str "\\bgraduation\\b", str "\\byear\\b", str "\\bgrad\\s*year\\b",
       str "\\bcompletion\\s*year\\b", str "\\bgraduate\\s*year\\b"]),
    (str "gpa",
      [str "\\bgpa\\b", str "\\bgrade\\s*point\\b", str "\\baverage\\b",
       str "\\bgrading\\b"]),
    (str "visa_status",
      [str "\\bvisa\\b", str "\\bwork\\s*authorization\\b", str "\\beligibility\\b",
       str "\\bstatus\\b", str "\\bsponsorship\\b"]),
    (str "salary_expectation",
      [str "\\bsalary\\b", str "\\bcompensation\\b", str "\\bexpectation\\b",
       str "\\bexpected\\s*salary\\b", str "\\bpay\\b", str "\\bwage\\b"]),
    (str "start_date",
      [str "\\bstart\\s*date\\b", str "\\bavailable\\b", str "\\bbegin\\b",
       str "\\bcommence\\b", str "\\bstart\\s*work\\b"]),
    (str "linkedin",
      [str "\\blinkedin\\b", str "\\blinked\\s*in\\b", str "\\bprofile\\b"]),
    (str "website",
      [str "\\bwebsite\\b", str "\\bportfolio\\b", str "\\burl\\b",
       str "\\bhomepage\\b"]) ]

/-- The designated generic patterns of `_calculate_pattern_confidence`. -/
def generic_patterns : List (List Char) := [str "\\bname\\b", str "\\baddress\\b"]

/-- `FieldMatcher._calculate_pattern_confidence`: base 0.6, +0.3 when the
cleaned pattern text occurs verbatim in the label, +0.1 when the cleaned
pattern text is shorter than 10 characters, −0.2 for a designated generic
pattern, capped at 1.0. -/
def calculate_pattern_confidence (pattern : List Char) (field_label : List Char) : ℚ :=
  let confidence : ℚ := 6/10
  let pattern_clean := replWS (pyStripBSb pattern)
  let confidence := if containsSub field_label pattern_clean then confidence + 3/10 else confidence
  let confidence := if pattern_clean.length < 10 then confidence + 1/10 else confidence
  let confidence := if pattern ∈ generic_patterns then confidence - 2/10 else confidence
  min 1 confidence

/-- The per-pattern update step of the best-match fold in
`_pattern_field_matching`. -/
def patternStep (field_label field_label_lower data_key : List Char)
    (pattern : List Char) (best : Option FieldMatch × ℚ) : Option FieldMatch × ℚ :=
  if reSearch pattern field_label_lower then
    let confidence := calculate_pattern_confidence pattern field_label_lower
    if confidence > best.2 then
      (some ⟨field_label, data_key, confidence, str "Pattern match: " ++ pattern⟩,
       confidence)
    else best
  else best

/-- The file-upload keyword table of `_pattern_field_matching`. -/
def file_keywords : List (List Char × List (List Char)) :=
  [ (str "resume", [str "resume", str "cv", str "curriculum vitae"]),
    (str "cover_letter", [str "cover letter", str "covering letter", str "motivation"]),
    (str "transcript", [str "transcript", str "grades", str "academic record"]) ]

/-- The best-match fold of `_pattern_field_matching` over the whole
pattern table, starting from `(None, 0.0)`. -/
def bestPatternMatch (field_label : List Char) : Option FieldMatch × ℚ :=
  field_patterns.foldl
    (fun best kp => kp.2.foldl
      (fun b p => patternStep field_label (lowerCL field_label) kp.1 p b) best)
    (none, 0)

/-- The file-upload special case of `_pattern_field_matching`: the first
file type one of whose keywords occurs in the lower-cased label, at
confidence 0.8. -/
def fileKeywordMatch (field_label field_label_lower : List Char) : Option FieldMatch :=
  file_keywords.findSome? (fun kw =>
    if kw.2.any (fun keyword => containsSub field_label_lower keyword) then
      some (⟨field_label, kw.1, 8/10, str "File upload field for " ++ kw.1⟩ : FieldMatch)
    else none)

/-- `FieldMatcher._pattern_field_matching`: keep the highest-confidence
pattern hit over the whole table; for file fields a file-keyword hit
returns immediately with confidence 0.8, bypassing the scored best match. -/
def pattern_field_matching (field_label : List Char) (field_type : List Char) :
    Option FieldMatch :=
  if field_label = [] then none
  else
    match (if field_type = str "file"
           then fileKeywordMatch field_label (lowerCL field_label)
           else none) with
    | some m => some m
    | none => (bestPatternMatch field_label).1

/-- `FieldMatcher.validate_field_mapping`: false on empty label or key,
false when the key is absent from `field_patterns`, otherwise true iff
some registered pattern of the key matches the lower-cased label. -/
def validate_field_mapping (field_label : List Char) (data_key : List Char) : Bool :=
  if field_label = [] || data_key = [] then false
  else
    match field_patterns.find? (fun kp => kp.1 = data_key) with
    | none => false
    | some kp => kp.2.any (fun pattern => reSearch pattern (lowerCL field_label))

/-- Decimal value of a digit string. -/
def digitsVal (l : List Char) : ℕ :=
  l.foldl (fun a c => 10 * a + (c.toNat - '0'.toNat)) 0

/-- Python `float(s)` restricted to plain decimal literals: optional
whitespace, optional sign, digits with an optional decimal point (no
exponent, no inf/nan).  `none` models the `ValueError` that the source
catches. -/
def pyFloat (s : List Char) : Option ℚ :=
  let t := pyStripWS s
  let signAndRest : ℚ × List Char :=
    match t with
    | '+' :: r => (1, r)
    | '-' :: r => (-1, r)
    | r => (1, r)
  let sign := signAndRest.1
  let u := signAndRest.2
  let intPart := u.takeWhile Char.isDigit
  let rest := u.dropWhile Char.isDigit
  match rest with
  | [] => if intPart = [] then none else some (sign * (digitsVal intPart : ℚ))
  | '.' :: frac =>
    let fracPart := frac.takeWhile Char.isDigit
    let rest2 := frac.dropWhile Char.isDigit
    if rest2 = [] then
      if intPart = [] && fracPart = [] then none
      else some (sign *
        ((digitsVal intPart : ℚ) + (digitsVal fracPart : ℚ) / 10 ^ fracPart.length))
    else none
  | _ => none

/-- The part-list handling of `_ai_field_matching`: require at least
three parts with the first distinct from the literal `unknown`, and parse
the second as a floating value (a parse failure raises, is caught, and
yields `none`). -/
def aiFromParts (field_label : List Char) (parts : List (List Char)) :
    Option FieldMatch :=
  if 3 ≤ parts.length ∧ parts.getD 0 [] ≠ str "unknown" then
    match pyFloat (pyStripWS (parts.getD 1 [])) with
    | none => none
    | some confidence =>
      some ⟨field_label, pyStripWS (parts.getD 0 []), confidence,
            pyStripWS (parts.getD 2 [])⟩
  else none

/-- The response-handling part of `FieldMatcher._ai_field_matching`, as a
function of the text body returned by the external service: strip the
body, split it on `|`, and hand the parts to `aiFromParts`. -/
def ai_parse_response (field_label : List Char) (body : List Char) : Option FieldMatch :=
  aiFromParts field_label (splitPipe (pyStripWS body))

/-- `FieldMatcher._ai_field_matching` with the external service modelled
as an oracle from (label, field type) to an optional response body
(`none` models an errored call, caught by the source). -/
def ai_field_matching (aiBody : List Char → List Char → Option (List Char))
    (field_label field_type : List Char) : Option FieldMatch :=
  match aiBody field_label field_type with
  | none => none
  | some body => ai_parse_response field_label body

/-- Python truthiness of `field.label` (an `Optional[str]`): `None` and
the empty string are falsy. -/
def labelTruthy : Option (List Char) → Bool
  | none => false
  | some s => !s.isEmpty

/-- The dataclass `FormField` of `src/screen_analyzer.py`. -/
structure FormField where
  x : ℤ
  y : ℤ
  width : ℤ
  height : ℤ
  field_type : List Char
  label : Option (List Char) := none
  placeholder : Option (List Char) := none
  confidence : ℚ := 0
  deriving DecidableEq

/-- The per-field resolution of `FieldMatcher.match_fields`: the AI path
when enabled, configured and the label truthy, falling through to the
pattern matcher when it declines. -/
def matchOneField (aiBody : List Char → List Char → Option (List Char))
    (hasAnthropic use_ai : Bool) (field : FormField) : Option FieldMatch :=
  let aiRes :=
    if use_ai && hasAnthropic && labelTruthy field.label then
      ai_field_matching aiBody (field.label.getD []) field.field_type
    else none
  match aiRes with
  | some m => some m
  | none => pattern_field_matching (field.label.getD []) field.field_type

/-- `FieldMatcher.match_fields`. -/
def match_fields (aiBody : List Char → List Char → Option (List Char))
    (hasAnthropic use_ai : Bool) (detected_fields : List FormField) : List FieldMatch :=
  detected_fields.filterMap (matchOneField aiBody hasAnthropic use_ai)

/-- Whether `k` is a key of the association list modelling a Python dict. -/
def dictKeyMem (m : List (List Char × List Char)) (k : List Char) : Bool :=
  m.any (fun kv => kv.1 = k)

/-- `m[k] = v` on the association-list model of a Python dict: overwrite
in place when the key exists, else append. -/
def dictInsert (m : List (List Char × List Char)) (k v : List Char) :
    List (List Char × List Char) :=
  if dictKeyMem m k then m.map (fun kv => if kv.1 = k then (kv.1, v) else kv)
  else m ++ [(k, v)]

/-- The dict-building loop of `FieldMatcher.get_suggested_mappings`:
every match with confidence > 0.5 contributes `field_name ↦ data_key`. -/
def mappingsOf (ms : List FieldMatch) : List (List Char × List Char) :=
  ms.foldl
    (fun m mt => if mt.confidence > 1/2 then dictInsert m mt.field_name mt.data_key
                 else m) []

/-- `FieldMatcher.get_suggested_mappings` (`use_ai` takes its default
`True` in the internal `match_fields` call). -/
def get_suggested_mappings (aiBody : List Char → List Char → Option (List Char))
    (hasAnthropic : Bool) (detected_fields : List FormField) :
    List (List Char × List Char) :=
  mappingsOf (match_fields aiBody hasAnthropic true detected_fields)

/-! ### `ScreenAnalyzer` (`src/screen_analyzer.py`) -/

/-- `ScreenAnalyzer._classify_field_type`: purely geometric thresholds
(the sampled pixel region is computed but unused by the source). -/
def classify_field_type (w h : ℤ) : List Char :=
  if h > 80 then str "textarea"
  else if w > 400 ∧ h < 50 then str "input"
  else if 100 < w ∧ w < 200 ∧ 20 < h ∧ h < 40 then str "select"
  else str "input"

/-- The overlap ratio of `_remove_duplicates`: intersection area divided
by the smaller of the two box areas (Python true division, exact in ℚ). -/
def overlap_ratio (field existing : FormField) : ℚ :=
  let overlap_x : ℤ :=
    max 0 (min (field.x + field.width) (existing.x + existing.width) -
           max field.x existing.x)
  let overlap_y : ℤ :=
    max 0 (min (field.y + field.height) (existing.y + existing.height) -
           max field.y existing.y)
  let overlap_area : ℤ := overlap_x * overlap_y
  let field_area : ℤ := field.width * field.height
  let existing_area : ℤ := existing.width * existing.height
  (overlap_area : ℚ) / ((min field_area existing_area : ℤ) : ℚ)

/-- The duplicate test of `_remove_duplicates`: overlap ratio above the
0.5 threshold. -/
def isDup (field existing : FormField) : Bool := overlap_ratio field existing > 1/2

/-- The descending-confidence order used by
`fields.sort(key=lambda f: f.confidence, reverse=True)`. -/
def confGE (a b : FormField) : Prop := b.confidence ≤ a.confidence

instance : DecidableRel confGE :=
  fun a b => inferInstanceAs (Decidable (b.confidence ≤ a.confidence))

instance : IsTotal FormField confGE := ⟨fun a b => le_total b.confidence a.confidence⟩

instance : IsTrans FormField confGE := ⟨fun _ _ _ h1 h2 => le_trans h2 h1⟩

instance : IsRefl FormField confGE := ⟨fun a => le_refl a.confidence⟩

/-- `fields.sort(key=lambda f: f.confidence, reverse=True)`: a stable
sort by descending confidence.  Python's sort is stable and
`reverse=True` preserves the original order of equal keys, so any stable
sort under `confGE` — here insertion sort, which places an element before
the first kept element it weakly dominates — computes the same list. -/
def sortByConfDesc (fields : List FormField) : List FormField :=
  fields.insertionSort confGE

/-- The greedy suppression loop of `_remove_duplicates`: keep a field
unless it duplicates an already-kept one. -/
def dedupLoop (filtered_fields : List FormField) : List FormField → List FormField
  | [] => filtered_fields
  | field :: rest =>
    if filtered_fields.any (fun existing => isDup field existing) then
      dedupLoop filtered_fields rest
    else dedupLoop (filtered_fields ++ [field]) rest

/-- `ScreenAnalyzer._remove_duplicates`.  The source sorts its argument
list **in place** (`fields.sort`) before filtering, so the embedding
returns a pair: the first component is the contents of the caller's list
after the call, the second is the returned filtered list. -/
def remove_duplicates (fields : List FormField) : List FormField × List FormField :=
  if fields = [] then (fields, fields)
  else
    let sorted := sortByConfDesc fields
    (sorted, dedupLoop [] sorted)

/-- An OpenCV contour as the source consumes it: the bounding rectangle
(`cv2.boundingRect`) and the contour area (`cv2.contourArea`). -/
structure Contour where
  x : ℤ
  y : ℤ
  w : ℤ
  h : ℤ
  area : ℚ
  deriving DecidableEq

/-- The size/aspect filter of `detect_form_fields` on one contour:
width ∈ (20, 800), height ∈ (15, 100), area > 300, and aspect ratio
width/height ∈ (1.5, 20).  The source checks the aspect ratio in a nested
`if` after the size test; with short-circuit conjunction the two are
equivalent (and height > 15 > 0 guards the division). -/
def contourPasses (c : Contour) : Bool :=
  (decide (20 < c.w) && decide (c.w < 800) && decide (15 < c.h) &&
   decide (c.h < 100) && decide (c.area > 300)) &&
  (decide ((3:ℚ)/2 < (c.w : ℚ) / (c.h : ℚ)) && decide ((c.w : ℚ) / (c.h : ℚ) < 20))

/-- The `FormField` built by `detect_form_fields` for a passing contour
(`confidence=0.7`; the label comes from the OCR-backed
`_extract_nearby_text`, supplied as an oracle). -/
def contourField (labelOf : Contour → Option (List Char)) (c : Contour) : FormField :=
  ⟨c.x, c.y, c.w, c.h, classify_field_type c.w c.h, labelOf c, none, 7/10⟩

/-- Everything `detect_form_fields` obtains from a frame through external
collaborators: the extracted contours (OpenCV), the per-contour OCR label
oracle, and the fields found by the OCR-based
`_detect_buttons_and_uploads` pass. -/
structure DetectFrame where
  contours : List Contour
  labelOf : Contour → Option (List Char)
  buttonFields : List FormField

/-- `ScreenAnalyzer.detect_form_fields`: raise (`Except.error`) iff
neither a screenshot argument nor a stored screenshot exists; otherwise
collect the passing contours as fields, append the button/upload fields,
and return the deduplicated result. -/
def detect_form_fields (stored screenshot : Option DetectFrame) :
    Except (List Char) (List FormField) :=
  let shot := match screenshot with
              | some f => some f
              | none => stored
  match shot with
  | none => Except.error (str "No screenshot available. Call capture_screen() first.")
  | some fr =>
    let geo := fr.contours.foldl
      (fun acc c => if contourPasses c then acc ++ [contourField fr.labelOf c] else acc)
      []
    let form_fields := geo ++ fr.buttonFields
    Except.ok (remove_duplicates form_fields).2

/-- A numpy sub-rectangle `gray[r1:r2, c1:c2]` of the grayscale frame. -/
structure Rect where
  r1 : ℤ
  r2 : ℤ
  c1 : ℤ
  c2 : ℤ
  deriving DecidableEq

/-- Length of the slice `[lo:hi]` of an axis of length `n`, for
non-negative `lo`, `hi` (numpy clamps both ends to `n`). -/
def sliceLen (n lo hi : ℤ) : ℤ := max 0 (min hi n - min lo n)

/-- `region.size` of the sub-rectangle on an `Hh × Ww` frame. -/
def rectSize (Hh Ww : ℤ) (r : Rect) : ℤ :=
  sliceLen Hh r.r1 r.r2 * sliceLen Ww r.c1 r.c2

/-- The three `search_regions` of `_extract_nearby_text`, in source
order: left of the field, above it, right of it (margin 20,
height expansion 40, horizontal reach 200). -/
def search_regions (x y w h Ww : ℤ) : List Rect :=
  [ ⟨max 0 (y - 20), y + h + 20, max 0 (x - 200), x⟩,
    ⟨max 0 (y - 40), y, x, x + w⟩,
    ⟨max 0 (y - 20), y + h + 20, x + w, min Ww (x + w + 200)⟩ ]

/-- The cleaning of `_extract_nearby_text`:
`re.sub(r'[^\w\s]', '', text).strip()`. -/
def cleanText (t : List Char) : List Char :=
  pyStripWS (t.filter (fun c => isWordChar c || isPySpace c))

/-- The probing loop of `_extract_nearby_text` over the remaining
sub-regions: skip empty regions, treat an OCR exception (`none` from the
oracle) as `continue`, and return the first cleaned text of acceptable
length. -/
def extractGo (Hh Ww : ℤ) (ocr : Rect → Option (List Char)) :
    List Rect → Option (List Char)
  | [] => none
  | r :: rs =>
    if rectSize Hh Ww r = 0 then extractGo Hh Ww ocr rs
    else
      match ocr r with
      | none => extractGo Hh Ww ocr rs
      | some raw =>
        let text := cleanText (pyStripWS raw)
        if 2 < text.length ∧ text.length < 50 then some text
        else extractGo Hh Ww ocr rs

/-- `ScreenAnalyzer._extract_nearby_text` on a frame of shape
`Hh × Ww`, with the external OCR engine as an oracle from sub-rectangle
to optional raw text (`none` models a raised OCR exception). -/
def extract_nearby_text (Hh Ww x y w h : ℤ)
    (ocr : Rect → Option (List Char)) : Option (List Char) :=
  extractGo Hh Ww ocr (search_regions x y w h Ww)

/-- One probe, as the spec words it: a sub-region yields a label only if
it is non-empty, the OCR call succeeds, and the cleaned text has length
strictly between 2 and 50. -/
def probeRegion (Hh Ww : ℤ) (ocr : Rect → Option (List Char)) (r : Rect) :
    Option (List Char) :=
  if rectSize Hh Ww r = 0 then none
  else
    match ocr r with
    | none => none
    | some raw =>
      let cleaned := cleanText (pyStripWS raw)
      if 2 < cleaned.length ∧ cleaned.length < 50 then some cleaned else none

/-- The Label Extractor acceptance rule stated from the spec's words:
probe left, above, right in that order and return the first acceptable
cleaned text; absent (never an error) when all three probes fail. -/
def label_extractor_spec (Hh Ww x y w h : ℤ)
    (ocr : Rect → Option (List Char)) : Option (List Char) :=
  (search_regions x y w h Ww).findSome? (probeRegion Hh Ww ocr)

/-! ### Claims -/

/-- C6: for every regex pattern (in particular every pattern registered in
`field_patterns`) and every label string — including the empty string and
arbitrarily long labels — the computed pattern confidence lies in `[0,1]`. -/
theorem pattern_confidence_in_unit_interval (pattern field_label : List Char) :
    0 ≤ calculate_pattern_confidence pattern field_label ∧
    calculate_pattern_confidence pattern field_label ≤ 1 := by
  have hmin : ∀ x : ℚ, 2/5 ≤ x → 0 ≤ min 1 x ∧ min 1 x ≤ 1 := fun x hx =>
    ⟨le_min (by norm_num) (le_trans (by norm_num) hx), min_le_left _ _⟩
  unfold calculate_pattern_confidence
  apply hmin
  split_ifs <;> norm_num

/-- The file-upload branch of `_pattern_field_matching` is the only place
its result depends on the field type, so all non-file field types resolve
a label identically. -/
lemma pattern_field_matching_of_ne_file (field_label field_type : List Char)
    (h : field_type ≠ str "file") :
    pattern_field_matching field_label field_type =
      pattern_field_matching field_label [] := by
  unfold pattern_field_matching
  rw [if_neg h, if_neg (by decide : ¬ ([] : List Char) = str "file")]

set_option maxRecDepth 40000 in
/-- C2: for every non-file field kind, the pattern matcher resolves the
label "Email Address" to the data key `email` with confidence ≥ 0.6 (in
fact exactly 1.0, through the pattern `\bemail\b`), and resolves the
label "xyz123" to no match. -/
theorem email_label_resolution (field_type : List Char)
    (h : field_type ≠ str "file") :
    (∃ m : FieldMatch,
       pattern_field_matching (str "Email Address") field_type = some m ∧
       m.data_key = str "email" ∧ 6/10 ≤ m.confidence) ∧
    pattern_field_matching (str "xyz123") field_type = none := by
  rw [pattern_field_matching_of_ne_file _ _ h]
  rw [pattern_field_matching_of_ne_file _ _ h]
  refine ⟨⟨⟨str "Email Address", str "email", 1, str "Pattern match: \\bemail\\b"⟩,
          ?_, rfl, by norm_num⟩, ?_⟩
  · with_unfolding_all decide
  · with_unfolding_all decide

/-- Witness for C2 at the concrete field kind `input`. -/
theorem email_label_resolution_witness :
    (∃ m : FieldMatch,
       pattern_field_matching (str "Email Address") (str "input") = some m ∧
       m.data_key = str "email" ∧ 6/10 ≤ m.confidence) ∧
    pattern_field_matching (str "xyz123") (str "input") = none :=
  email_label_resolution (str "input") (by decide)

/-- C10: `validate_field_mapping` returns `False` for every field label
when the data key is `resume`, `cover_letter` or `transcript` (these keys
are absent from the `field_patterns` table it consults), even though
`_pattern_field_matching` itself emits exactly these keys for file-upload
fields at confidence 0.8. -/
theorem validate_rejects_file_upload_keys (field_label : List Char) :
    validate_field_mapping field_label (str "resume") = false ∧
    validate_field_mapping field_label (str "cover_letter") = false ∧
    validate_field_mapping field_label (str "transcript") = false ∧
    pattern_field_matching (str "Upload Resume") (str "file") =
      some ⟨str "Upload Resume", str "resume", 8/10,
            str "File upload field for resume"⟩ ∧
    pattern_field_matching (str "Cover Letter") (str "file") =
      some ⟨str "Cover Letter", str "cover_letter", 8/10,
            str "File upload field for cover_letter"⟩ ∧
    pattern_field_matching (str "Academic Transcript") (str "file") =
      some ⟨str "Academic Transcript", str "transcript", 8/10,
            str "File upload field for transcript"⟩ := by
  refine ⟨?_, ?_, ?_, by with_unfolding_all decide, by with_unfolding_all decide,
         by with_unfolding_all decide⟩ <;>
    (rcases field_label with _ | ⟨c, cs⟩ <;> rfl)

/-- C7: the AI-assisted matcher's response handling — `unknown|0.0|no
idea` yields no `FieldMatch`; `phone|0.92|clear phone field` yields a
`FieldMatch` with data key `phone` and confidence 0.92; any response
whose first part is the literal `unknown`, and any response whose second
part fails to parse as a floating value, yields no `FieldMatch`. -/
theorem ai_response_parsing (field_label : List Char) :
    ai_parse_response field_label (str "unknown|0.0|no idea") = none ∧
    ai_parse_response field_label (str "phone|0.92|clear phone field") =
      some ⟨field_label, str "phone", 92/100, str "clear phone field"⟩ ∧
    (∀ body : List Char,
       (splitPipe (pyStripWS body)).getD 0 [] = str "unknown" →
       ai_parse_response field_label body = none) ∧
    (∀ body : List Char,
       pyFloat (pyStripWS ((splitPipe (pyStripWS body)).getD 1 [])) = none →
       ai_parse_response field_label body = none) := by
  refine ⟨rfl, ?_, ?_, ?_⟩
  · have h1 : splitPipe (pyStripWS (str "phone|0.92|clear phone field")) =
        [str "phone", str "0.92", str "clear phone field"] := by decide
    unfold ai_parse_response aiFromParts
    rw [h1, if_pos (by decide :
      3 ≤ ([str "phone", str "0.92", str "clear phone field"] :
            List (List Char)).length ∧
      ([str "phone", str "0.92", str "clear phone field"] :
            List (List Char)).getD 0 [] ≠ str "unknown")]
    rw [show pyFloat (pyStripWS (([str "phone", str "0.92",
          str "clear phone field"] : List (List Char)).getD 1 [])) =
        some (92/100 : ℚ) from by with_unfolding_all decide]
    rfl
  · intro body hb
    exact if_neg (fun hc => hc.2 hb)
  · intro body hb
    unfold ai_parse_response aiFromParts
    split_ifs with hc
    · rw [hb]
    · rfl

/-- Witness for C7 at a concrete label and concrete malformed bodies. -/
theorem ai_response_parsing_witness :
    ai_parse_response (str "L") (str "unknown|0.0|no idea") = none ∧
    ai_parse_response (str "L") (str "phone|0.92|clear phone field") =
      some ⟨str "L", str "phone", 92/100, str "clear phone field"⟩ ∧
    ai_parse_response (str "L") (str "unknown|0.7|sure") = none ∧
    ai_parse_response (str "L") (str "phone|high|sure") = none :=
  ⟨(ai_response_parsing (str "L")).1,
   (ai_response_parsing (str "L")).2.1,
   (ai_response_parsing (str "L")).2.2.1 (str "unknown|0.7|sure") (by decide),
   (ai_response_parsing (str "L")).2.2.2 (str "phone|high|sure") (by decide)⟩

/-- Inserting `k ↦ v` into a dict leaves a key present iff it was
already present or it is `k`. -/
lemma dictKeyMem_dictInsert (m : List (List Char × List Char)) (k v k' : List Char) :
    dictKeyMem (dictInsert m k v) k' = true ↔
      (dictKeyMem m k' = true ∨ k' = k) := by
  unfold dictInsert
  split_ifs with hmem
  · have hkeys : dictKeyMem (m.map (fun kv => if kv.1 = k then (kv.1, v) else kv)) k' =
        dictKeyMem m k' := by
      unfold dictKeyMem
      rw [List.any_map]
      have hfun : ((fun kv : List Char × List Char => decide (kv.1 = k')) ∘
            (fun kv : List Char × List Char => if kv.1 = k then (kv.1, v) else kv)) =
          (fun kv : List Char × List Char => decide (kv.1 = k')) := by
        funext kv
        by_cases hk : kv.1 = k <;> simp [Function.comp, hk]
      rw [hfun]
    rw [hkeys]
    constructor
    · exact Or.inl
    · rintro (h | rfl)
      · exact h
      · exact hmem
  · unfold dictKeyMem at *
    rw [List.any_append]
    simp only [List.any_cons, List.any_nil, Bool.or_false, Bool.or_eq_true,
      decide_eq_true_eq]
    constructor
    · rintro (h | h)
      · exact Or.inl h
      · exact Or.inr h.symm
    · rintro (h | h)
      · exact Or.inl h
      · exact Or.inr h.symm

/-- The dict produced by the `get_suggested_mappings` loop holds a key
iff the accumulator already held it or some match with that field name
has confidence above 0.5. -/
lemma dictKeyMem_mappings_loop (ms : List FieldMatch) :
    ∀ (acc : List (List Char × List Char)) (label : List Char),
    dictKeyMem
      (ms.foldl
        (fun m mt =>
          if mt.confidence > 1/2 then dictInsert m mt.field_name mt.data_key else m)
        acc) label = true ↔
    (dictKeyMem acc label = true ∨
      ∃ mt ∈ ms, mt.field_name = label ∧ mt.confidence > 1/2) := by
  induction ms with
  | nil => simp
  | cons mt ms ih =>
    intro acc label
    rw [List.foldl_cons]
    by_cases hc : mt.confidence > 1/2
    · rw [if_pos hc, ih, dictKeyMem_dictInsert]
      constructor
      · rintro ((h | rfl) | ⟨mt', hmt', h1, h2⟩)
        · exact Or.inl h
        · exact Or.inr ⟨mt, List.mem_cons_self mt ms, rfl, hc⟩
        · exact Or.inr ⟨mt', List.mem_cons_of_mem mt hmt', h1, h2⟩
      · rintro (h | ⟨mt', hmt', h1, h2⟩)
        · exact Or.inl (Or.inl h)
        · rcases List.mem_cons.mp hmt' with rfl | hmt''
          · exact Or.inl (Or.inr h1.symm)
          · exact Or.inr ⟨mt', hmt'', h1, h2⟩
    · rw [if_neg hc, ih]
      constructor
      · rintro (h | ⟨mt', hmt', h1, h2⟩)
        · exact Or.inl h
        · exact Or.inr ⟨mt', List.mem_cons_of_mem mt hmt', h1, h2⟩
      · rintro (h | ⟨mt', hmt', h1, h2⟩)
        · exact Or.inl h
        · rcases List.mem_cons.mp hmt' with rfl | hmt''
          · exact absurd h2 hc
          · exact Or.inr ⟨mt', hmt'', h1, h2⟩

set_option maxRecDepth 40000 in
/-- C9: for every field list and external-service oracle, a label is a
key of the suggested-mappings view iff some resolved `FieldMatch` with
that label has confidence strictly greater than 0.5; concretely, a match
at confidence 0.45 contributes nothing and a match at confidence 0.51
contributes its entry. -/
theorem suggested_mappings_threshold :
    (∀ (aiBody : List Char → List Char → Option (List Char)) (hasAnthropic : Bool)
       (detected_fields : List FormField) (label : List Char),
       dictKeyMem (get_suggested_mappings aiBody hasAnthropic detected_fields) label
           = true ↔
         ∃ mt ∈ match_fields aiBody hasAnthropic true detected_fields,
           mt.field_name = label ∧ mt.confidence > 1/2) ∧
    mappingsOf [⟨str "A", str "email", 45/100, []⟩] = [] ∧
    mappingsOf [⟨str "B", str "phone", 51/100, []⟩] = [(str "B", str "phone")] := by
  refine ⟨?_, by with_unfolding_all decide, by with_unfolding_all decide⟩
  intro aiBody hasAnthropic detected_fields label
  unfold get_suggested_mappings mappingsOf
  rw [dictKeyMem_mappings_loop]
  simp only [dictKeyMem, List.any_nil, Bool.false_eq_true, false_or]

/-- The overlap ratio is symmetric in its two arguments. -/
lemma overlap_ratio_comm (a b : FormField) : overlap_ratio a b = overlap_ratio b a := by
  simp only [overlap_ratio]
  rw [min_comm (a.x + a.width) (b.x + b.width), max_comm a.x b.x,
      min_comm (a.y + a.height) (b.y + b.height), max_comm a.y b.y,
      min_comm (a.width * a.height) (b.width * b.height)]

/-- C1: on an input of exactly two regions with positive extents and
distinct confidences (given here with `r1` the higher-confidence one, in
either input order), the deduplicator keeps only `r1` when the overlap
ratio exceeds 0.5, and keeps both regions (higher confidence first) when
it does not. -/
theorem dedup_pairwise_suppression (r1 r2 : FormField)
    (hw1 : 0 < r1.width) (hh1 : 0 < r1.height)
    (hw2 : 0 < r2.width) (hh2 : 0 < r2.height)
    (hc : r2.confidence < r1.confidence) :
    (overlap_ratio r1 r2 > 1/2 →
       (remove_duplicates [r1, r2]).2 = [r1] ∧
       (remove_duplicates [r2, r1]).2 = [r1]) ∧
    (overlap_ratio r1 r2 ≤ 1/2 →
       (remove_duplicates [r1, r2]).2 = [r1, r2] ∧
       (remove_duplicates [r2, r1]).2 = [r1, r2]) := by
  have hsort1 : sortByConfDesc [r1, r2] = [r1, r2] := by
    unfold sortByConfDesc
    simp only [List.insertionSort, List.orderedInsert]
    rw [if_pos (show confGE r1 r2 from hc.le)]
  have hsort2 : sortByConfDesc [r2, r1] = [r1, r2] := by
    unfold sortByConfDesc
    simp only [List.insertionSort, List.orderedInsert]
    rw [if_neg (show ¬ confGE r2 r1 from not_le.mpr hc)]
  unfold remove_duplicates
  rw [if_neg (show ¬ ([r1, r2] : List FormField) = [] by simp),
      if_neg (show ¬ ([r2, r1] : List FormField) = [] by simp),
      hsort1, hsort2]
  constructor
  · intro hgt
    have hd : isDup r2 r1 = true := by
      unfold isDup
      rw [overlap_ratio_comm]
      exact decide_eq_true hgt
    constructor <;> simp [dedupLoop, hd]
  · intro hle
    have hd : isDup r2 r1 = false := by
      unfold isDup
      rw [overlap_ratio_comm]
      exact decide_eq_false (not_lt.mpr hle)
    constructor <;> simp [dedupLoop, hd]

/-- Witness for C1 at two concrete fully-overlapping regions. -/
theorem dedup_pairwise_suppression_witness :
    (remove_duplicates [(⟨0, 0, 10, 10, str "input", none, none, 1⟩ : FormField),
                        ⟨0, 0, 10, 10, str "input", none, none, 0⟩]).2 =
      [(⟨0, 0, 10, 10, str "input", none, none, 1⟩ : FormField)] ∧
    (remove_duplicates [(⟨0, 0, 10, 10, str "input", none, none, 0⟩ : FormField),
                        ⟨0, 0, 10, 10, str "input", none, none, 1⟩]).2 =
      [(⟨0, 0, 10, 10, str "input", none, none, 1⟩ : FormField)] :=
  (dedup_pairwise_suppression
      ⟨0, 0, 10, 10, str "input", none, none, 1⟩
      ⟨0, 0, 10, 10, str "input", none, none, 0⟩
      (by decide) (by decide) (by decide) (by decide)
      (by with_unfolding_all decide)).1
    (by with_unfolding_all decide)

/-- The relation that holds along the deduplicator's output: a later
kept field is never a duplicate of an earlier kept one. -/
def keptOK (a b : FormField) : Prop := isDup b a = false

/-- The greedy suppression loop only ever returns a sublist of the
accumulator followed by the remaining input. -/
lemma dedupLoop_sublist : ∀ (l acc : List FormField),
    (dedupLoop acc l).Sublist (acc ++ l)
  | [], acc => by simp [dedupLoop]
  | f :: fs, acc => by
    unfold dedupLoop
    split_ifs with h
    · exact (dedupLoop_sublist fs acc).trans
        ((List.sublist_cons_self f fs).append_left acc)
    · have h2 := dedupLoop_sublist fs (acc ++ [f])
      simpa [List.append_assoc] using h2

/-- Every field appended by the greedy loop was checked against the
whole accumulator, so the output is pairwise duplicate-free. -/
lemma dedupLoop_pairwise : ∀ (l acc : List FormField),
    acc.Pairwise keptOK → (dedupLoop acc l).Pairwise keptOK
  | [], _, h => h
  | f :: fs, acc, h => by
    unfold dedupLoop
    split_ifs with hany
    · exact dedupLoop_pairwise fs acc h
    · refine dedupLoop_pairwise fs (acc ++ [f]) ?_
      rw [List.pairwise_append]
      refine ⟨h, List.pairwise_singleton _ _, ?_⟩
      intro a ha b hb
      rw [List.mem_singleton] at hb
      have hfalse : acc.any (fun existing => isDup f existing) = false :=
        Bool.eq_false_iff.mpr hany
      have hne := List.any_eq_false.mp hfalse a ha
      rw [hb]
      exact Bool.eq_false_iff.mpr hne

/-- On a pairwise duplicate-free input none of whose fields duplicates
the accumulator, the greedy loop keeps everything. -/
lemma dedupLoop_eq_append : ∀ (l acc : List FormField),
    l.Pairwise keptOK → (∀ f ∈ l, ∀ a ∈ acc, isDup f a = false) →
    dedupLoop acc l = acc ++ l
  | [], acc, _, _ => by simp [dedupLoop]
  | f :: fs, acc, hp, hfa => by
    unfold dedupLoop
    have hany : acc.any (fun existing => isDup f existing) = false := by
      rw [List.any_eq_false]
      intro a ha
      simp [hfa f (List.mem_cons_self f fs) a ha]
    rw [hany]
    simp only [Bool.false_eq_true, if_false]
    rw [dedupLoop_eq_append fs (acc ++ [f]) hp.of_cons ?_, List.append_assoc,
        List.singleton_append]
    intro g hg a ha
    rcases List.mem_append.mp ha with ha' | ha'
    · exact hfa g (List.mem_cons_of_mem f hg) a ha'
    · rw [List.mem_singleton] at ha'
      subst ha'
      exact List.rel_of_pairwise_cons hp hg

/-- C4: the deduplicator is idempotent — re-running it on its own output
returns that output verbatim (and even re-sorting changes nothing, since
the output is already in descending-confidence order). -/
theorem dedup_idempotent (fields : List FormField)
    (hpos : ∀ f ∈ fields, 0 < f.width ∧ 0 < f.height) :
    remove_duplicates (remove_duplicates fields).2 =
      ((remove_duplicates fields).2, (remove_duplicates fields).2) := by
  by_cases hnil : fields = []
  · subst hnil
    rfl
  · have houter : (remove_duplicates fields).2 =
        dedupLoop [] (sortByConfDesc fields) := by
      unfold remove_duplicates
      rw [if_neg hnil]
    rw [houter]
    set s := sortByConfDesc fields with hs
    set out := dedupLoop [] s with hout
    have hsorted_s : s.Sorted confGE := List.sorted_insertionSort confGE fields
    have hsub : out.Sublist s := by
      have := dedupLoop_sublist s []
      simpa using this
    have hsorted : out.Sorted confGE := hsorted_s.sublist hsub
    have hkept : out.Pairwise keptOK := dedupLoop_pairwise s [] List.Pairwise.nil
    by_cases ho : out = []
    · rw [ho]
      rfl
    · unfold remove_duplicates
      rw [if_neg ho]
      have hsort_eq : sortByConfDesc out = out := by
        unfold sortByConfDesc
        exact hsorted.insertionSort_eq
      show (sortByConfDesc out, dedupLoop [] (sortByConfDesc out)) = (out, out)
      rw [hsort_eq, dedupLoop_eq_append out [] hkept (by intro f _ a ha; simp at ha),
          List.nil_append]

/-- Witness for C4 at a concrete singleton region list. -/
theorem dedup_idempotent_witness :
    remove_duplicates
        (remove_duplicates [(⟨0, 0, 5, 5, str "input", none, none, 1⟩ : FormField)]).2 =
      ((remove_duplicates [(⟨0, 0, 5, 5, str "input", none, none, 1⟩ : FormField)]).2,
       (remove_duplicates [(⟨0, 0, 5, 5, str "input", none, none, 1⟩ : FormField)]).2) :=
  dedup_idempotent [⟨0, 0, 5, 5, str "input", none, none, 1⟩] (by decide)

/-- Counterexample for C5: `_remove_duplicates` sorts its input list in
place, so for a two-element list given in ascending-confidence order the
caller's list no longer holds the regions in their original order after
the call. -/
theorem dedup_mutates_input_order :
    (remove_duplicates [(⟨0, 0, 5, 5, str "input", none, none, 0⟩ : FormField),
                        ⟨9, 9, 5, 5, str "input", none, none, 1⟩]).1 ≠
      [(⟨0, 0, 5, 5, str "input", none, none, 0⟩ : FormField),
       ⟨9, 9, 5, 5, str "input", none, none, 1⟩] := by
  with_unfolding_all decide

/-- C5 (amended): the deduplicator produces a fresh output collection,
but it does mutate the caller's list: after the call the input list holds
the same regions (a permutation of its previous contents), stably
re-sorted into descending-confidence order rather than the original
order. -/
theorem dedup_input_list_after_call (fields : List FormField) :
    (remove_duplicates fields).1.Perm fields ∧
    (remove_duplicates fields).1.Sorted confGE := by
  unfold remove_duplicates
  by_cases h : fields = []
  · subst h
    exact ⟨List.Perm.refl _, List.sorted_nil⟩
  · rw [if_neg h]
    exact ⟨List.perm_insertionSort confGE fields,
           List.sorted_insertionSort confGE fields⟩

/-- When every contour fails the size/aspect filter, the contour fold of
`detect_form_fields` collects nothing. -/
lemma detect_fold_nil (labelOf : Contour → Option (List Char)) :
    ∀ (l : List Contour) (acc : List FormField),
    (∀ c ∈ l, contourPasses c = false) →
    l.foldl (fun acc c =>
      if contourPasses c then acc ++ [contourField labelOf c] else acc) acc = acc
  | [], _, _ => rfl
  | c :: cs, acc, h => by
    rw [List.foldl_cons]
    have hc : contourPasses c = false := h c (List.mem_cons_self c cs)
    rw [hc]
    simp only [Bool.false_eq_true, if_false]
    exact detect_fold_nil labelOf cs acc (fun d hd => h d (List.mem_cons_of_mem c hd))

/-- C3 (amended): the detection call raises an input error exactly when
no frame is supplied and none was previously captured; for every supplied
frame in which no contour passes the size/aspect filter it does not raise
and returns exactly the deduplicated OCR-keyword-derived upload fields —
in particular the empty sequence when that pass finds none. -/
theorem detector_failure_behaviour :
    (∀ stored screenshot : Option DetectFrame,
       (∃ e, detect_form_fields stored screenshot = Except.error e) ↔
         (stored = none ∧ screenshot = none)) ∧
    (∀ (stored : Option DetectFrame) (fr : DetectFrame),
       (∀ c ∈ fr.contours, contourPasses c = false) →
       detect_form_fields stored (some fr) =
         Except.ok (remove_duplicates fr.buttonFields).2) ∧
    (∀ (stored : Option DetectFrame) (fr : DetectFrame),
       (∀ c ∈ fr.contours, contourPasses c = false) →
       fr.buttonFields = [] →
       detect_form_fields stored (some fr) = Except.ok []) := by
  have hdet : ∀ (stored : Option DetectFrame) (fr : DetectFrame),
      (∀ c ∈ fr.contours, contourPasses c = false) →
      detect_form_fields stored (some fr) =
        Except.ok (remove_duplicates fr.buttonFields).2 := by
    intro stored fr h
    show Except.ok (remove_duplicates
        ((fr.contours.foldl (fun acc c =>
            if contourPasses c then acc ++ [contourField fr.labelOf c] else acc) []) ++
          fr.buttonFields)).2 = _
    rw [detect_fold_nil fr.labelOf fr.contours [] h, List.nil_append]
  refine ⟨?_, hdet, ?_⟩
  · intro stored screenshot
    rcases screenshot with _ | f
    · rcases stored with _ | g
      · constructor
        · intro _
          exact ⟨rfl, rfl⟩
        · intro _
          exact ⟨str "No screenshot available. Call capture_screen() first.", rfl⟩
      · constructor
        · rintro ⟨e, he⟩
          exact absurd he (by simp [detect_form_fields])
        · rintro ⟨h1, _⟩
          exact absurd h1 (by simp)
    · constructor
      · rintro ⟨e, he⟩
        exact absurd he (by simp [detect_form_fields])
      · rintro ⟨_, h2⟩
        exact absurd h2 (by simp)
  · intro stored fr h hb
    rw [hdet stored fr h, hb]
    rfl

/-- Witness for C3 at a concrete frame whose only contour fails the
filter and whose upload pass finds nothing. -/
theorem detector_failure_behaviour_witness :
    detect_form_fields none
        (some ⟨[⟨0, 0, 5, 5, 10⟩], fun _ => none, []⟩) = Except.ok [] :=
  detector_failure_behaviour.2.2 none ⟨[⟨0, 0, 5, 5, 10⟩], fun _ => none, []⟩
    (by intro c hc
        rw [List.mem_singleton] at hc
        rw [hc]
        with_unfolding_all decide)
    rfl

/-- Counterexample for C3 as stated: a supplied frame with no contours at
all, but whose OCR-keyword upload pass found one field, makes
`detect_form_fields` return a non-empty sequence. -/
theorem detector_nonempty_without_passing_contours :
    detect_form_fields none
        (some ⟨[], fun _ => none,
               [⟨0, 0, 60, 30, str "file", some (str "upload"), none, 31/100⟩]⟩) =
      Except.ok [⟨0, 0, 60, 30, str "file", some (str "upload"), none, 31/100⟩] ∧
    (Except.ok [(⟨0, 0, 60, 30, str "file", some (str "upload"), none,
                  31/100⟩ : FormField)] ≠
      (Except.ok [] : Except (List Char) (List FormField))) := by
  constructor
  · rfl
  · intro h
    simp at h

/-- The probing loop of the extractor agrees with the first-acceptable
probe of the spec's reading, region by region. -/
lemma extractGo_eq_firstProbe (Hh Ww : ℤ) (ocr : Rect → Option (List Char)) :
    ∀ l : List Rect,
    extractGo Hh Ww ocr l = l.findSome? (probeRegion Hh Ww ocr)
  | [] => rfl
  | r :: rs => by
    have ih := extractGo_eq_firstProbe Hh Ww ocr rs
    unfold extractGo
    rw [List.findSome?_cons]
    unfold probeRegion
    split_ifs with hsz
    · simpa using ih
    · cases hocr : ocr r with
      | none => simpa using ih
      | some raw =>
        by_cases hlen : 2 < (cleanText (pyStripWS raw)).length ∧
            (cleanText (pyStripWS raw)).length < 50
        · simp [hlen] <;> rfl
        · simp [hlen, ih] <;> rfl

/-- C8: for every region geometry inside the frame and every OCR oracle,
`_extract_nearby_text` probes the left, above and right sub-regions in
that order and returns the cleaned text (non-word characters stripped,
whitespace trimmed) of the first sub-region whose cleaned text has length
strictly between 2 and 50; when the OCR call fails or yields unacceptable
text on all three sub-regions, the result is `none` — the function is
total and never raises. -/
theorem label_extractor_acceptance (Hh Ww x y w h : ℤ)
    (hx : 0 ≤ x) (hy : 0 ≤ y) (hw : 0 < w) (hh : 0 < h)
    (ocr : Rect → Option (List Char)) :
    extract_nearby_text Hh Ww x y w h ocr =
      label_extractor_spec Hh Ww x y w h ocr :=
  extractGo_eq_firstProbe Hh Ww ocr (search_regions x y w h Ww)

/-- Witness for C8 at a concrete region and an OCR oracle that always
fails. -/
theorem label_extractor_acceptance_witness :
    extract_nearby_text 100 200 10 20 30 5 (fun _ => none) =
      label_extractor_spec 100 200 10 20 30 5 (fun _ => none) :=
  label_extractor_acceptance 100 200 10 20 30 5 (by decide) (by decide)
    (by decide) (by decide) (fun _ => none)

end FormFiller
